import Mathlib

/-!
Shallow embedding of the FF7 walkmesh viewer core: the binary decoders
(`parseWalkmesh`, `parseGateways`), the bounds calculator
(`calculateWalkmeshBounds`) and the spatial query engine
(`pointInTriangle`, `calculateZAtPoint`, `findTriangleAtPosition`).

Modelling conventions:
* A buffer is a list of bytes (`Fin 256`).  Reading past the end of a
  JavaScript array yields `undefined`, which the bitwise operators used by
  every reader coerce to `0`; this is modelled by `List.getD _ _ 0`.
* JavaScript numbers are modelled by `ℚ` (the decoded values and all the
  geometric arithmetic of the source stay exact in doubles for the
  integral data the decoder produces; `ℚ` is the idealised semantics).
* `readUInt32` combines the four bytes with JavaScript `|`, which works on
  signed 32-bit integers: the result is the two's-complement
  interpretation of the 32-bit pattern, negative when byte 3 ≥ 0x80.
* `Math.round` rounds half-way cases toward +∞: `jsRound q = ⌊q + 1/2⌋`.
* The bounds loop of the source seeds its accumulators with `±Infinity`;
  since the vertex list is non-empty in that branch this is equivalent to
  seeding the fold with the coordinates of the first vertex, which is how
  `calculateWalkmeshBounds` is written here (`min`/`max` with `±∞` is the
  identity on the first step).
-/

namespace FF7

abbrev Byte := Fin 256

abbrev Buffer := List Byte

/-- Reading `buffer[off]` in JavaScript inside a bitwise expression:
an in-range element is the byte itself, an out-of-range access gives
`undefined`, coerced to `0`. -/
def readByte (buffer : Buffer) (off : ℕ) : ℕ :=
  (buffer.getD off 0).val

/-- `readInt16` of the source: two bytes little-endian, values above
`0x7FFF` shifted down by `0x10000` (two's complement). -/
def readInt16 (buffer : Buffer) (off : ℕ) : ℤ :=
  let val : ℤ := (readByte buffer off : ℤ) + 256 * (readByte buffer (off + 1) : ℤ)
  if val > 0x7FFF then val - 0x10000 else val

/-- `readUInt16` of the source: two bytes little-endian, unsigned. -/
def readUInt16 (buffer : Buffer) (off : ℕ) : ℤ :=
  (readByte buffer off : ℤ) + 256 * (readByte buffer (off + 1) : ℤ)

/-- `readUInt32` of the source.  The JavaScript expression
`b0 | (b1 << 8) | (b2 << 16) | (b3 << 24)` operates on signed 32-bit
integers, so the combined 32-bit pattern is interpreted in two's
complement: unsigned values `≥ 2^31` come out negative. -/
def readUInt32 (buffer : Buffer) (off : ℕ) : ℤ :=
  let u : ℕ := readByte buffer off + 256 * readByte buffer (off + 1) +
    65536 * readByte buffer (off + 2) + 16777216 * readByte buffer (off + 3)
  if u < 2147483648 then (u : ℤ) else (u : ℤ) - 4294967296

structure WalkmeshVertex where
  x : ℚ
  y : ℚ
  z : ℚ
deriving DecidableEq, Repr

/-- A walkmesh triangle: three vertices and the three per-edge access
values (`0xFFFF` = blocked), in the source stored as the arrays
`vertices` and `access`. -/
structure WalkmeshTriangle where
  v0 : WalkmeshVertex
  v1 : WalkmeshVertex
  v2 : WalkmeshVertex
  access0 : ℚ
  access1 : ℚ
  access2 : ℚ
deriving DecidableEq, Repr

structure Walkmesh where
  triangleCount : ℤ
  triangles : List WalkmeshTriangle
deriving DecidableEq, Repr

/-- Body of the decoding loop of `parseWalkmesh` for index `i`:
vertex record at `4 + i*24` (three vertices with an 8-byte stride),
access record at `(4 + tc*24) + i*6`. -/
def parseTriangle (buffer : Buffer) (tc : ℕ) (i : ℕ) : WalkmeshTriangle :=
  let sectorOffset := 4 + i * 24
  let accessOffset := (4 + tc * 24) + i * 6
  { v0 := ⟨(readInt16 buffer sectorOffset : ℚ),
           (readInt16 buffer (sectorOffset + 2) : ℚ),
           (readInt16 buffer (sectorOffset + 4) : ℚ)⟩
    v1 := ⟨(readInt16 buffer (sectorOffset + 8) : ℚ),
           (readInt16 buffer (sectorOffset + 10) : ℚ),
           (readInt16 buffer (sectorOffset + 12) : ℚ)⟩
    v2 := ⟨(readInt16 buffer (sectorOffset + 16) : ℚ),
           (readInt16 buffer (sectorOffset + 18) : ℚ),
           (readInt16 buffer (sectorOffset + 20) : ℚ)⟩
    access0 := (readUInt16 buffer accessOffset : ℚ)
    access1 := (readUInt16 buffer (accessOffset + 2) : ℚ)
    access2 := (readUInt16 buffer (accessOffset + 4) : ℚ) }

/-- `parseWalkmesh` of the source.  The loop `for (i = 0; i < triangleCount;
i++)` runs `triangleCount.toNat` times (zero times when the signed count is
negative), modelled by a map over `List.range`. -/
def parseWalkmesh (buffer : Buffer) : Walkmesh :=
  if buffer.length < 4 then { triangleCount := 0, triangles := [] }
  else
    let triangleCount := readUInt32 buffer 0
    if triangleCount = 0 ∨ triangleCount > 10000 then { triangleCount := 0, triangles := [] }
    else
      { triangleCount := triangleCount
        triangles := (List.range triangleCount.toNat).map (parseTriangle buffer triangleCount.toNat) }

structure Gateway where
  vertex1 : WalkmeshVertex
  vertex2 : WalkmeshVertex
  fieldId : ℚ
deriving DecidableEq, Repr

/-- Body of the gateway loop of `parseGateways` for slot `i` (24-byte slots
starting at offset 56): `none` models `continue`. -/
def parseGatewaySlot (buffer : Buffer) (i : ℕ) : Option Gateway :=
  let offset := 56 + i * 24
  let fieldId := readUInt16 buffer (offset + 18)
  if fieldId = 0 then none
  else
    let vertex1 : WalkmeshVertex :=
      ⟨(readInt16 buffer offset : ℚ), (readInt16 buffer (offset + 2) : ℚ),
       (readInt16 buffer (offset + 4) : ℚ)⟩
    let vertex2 : WalkmeshVertex :=
      ⟨(readInt16 buffer (offset + 6) : ℚ), (readInt16 buffer (offset + 8) : ℚ),
       (readInt16 buffer (offset + 10) : ℚ)⟩
    if vertex1.x = 0 ∧ vertex1.y = 0 ∧ vertex2.x = 0 ∧ vertex2.y = 0 then none
    else some { vertex1 := vertex1, vertex2 := vertex2, fieldId := (fieldId : ℚ) }

/-- `parseGateways` of the source: 12 fixed slots, kept slots pushed in
slot order. -/
def parseGateways (buffer : Buffer) : List Gateway :=
  if buffer.length < 344 then []
  else (List.range 12).filterMap (parseGatewaySlot buffer)

/-- The signed-area expression `D` of `pointInTriangle`, which is also the
barycentric denominator `denom` of `calculateZAtPoint` (the source writes
the same formula in both places). -/
def pitD (v0x v0y v1x v1y v2x v2y : ℚ) : ℚ :=
  (v1y - v2y) * (v0x - v2x) + (v2x - v1x) * (v0y - v2y)

/-- The expression `s` of `pointInTriangle`, also the numerator of `w0` in
`calculateZAtPoint`. -/
def pitS (px py v1x v1y v2x v2y : ℚ) : ℚ :=
  (v1y - v2y) * (px - v2x) + (v2x - v1x) * (py - v2y)

/-- The expression `t` of `pointInTriangle`, also the numerator of `w1` in
`calculateZAtPoint`. -/
def pitT (px py v0x v0y v2x v2y : ℚ) : ℚ :=
  (v2y - v0y) * (px - v2x) + (v0x - v2x) * (py - v2y)

/-- `pointInTriangle` of the source: half-plane signs of `s`, `t`, `s+t`
against `D`, branching on the sign of `D` to accept both windings. -/
def pointInTriangle (px py v0x v0y v1x v1y v2x v2y : ℚ) : Bool :=
  let D := pitD v0x v0y v1x v1y v2x v2y
  let s := pitS px py v1x v1y v2x v2y
  let t := pitT px py v0x v0y v2x v2y
  if D < 0 then decide (s ≤ 0 ∧ t ≤ 0 ∧ s + t ≥ D)
  else decide (s ≥ 0 ∧ t ≥ 0 ∧ s + t ≤ D)

/-- `calculateZAtPoint` of the source: barycentric interpolation of the
vertex elevations, with an unweighted-average fallback when the
denominator is smaller than `0.0001` in magnitude. -/
def calculateZAtPoint (x y : ℚ) (tri : WalkmeshTriangle) : ℚ :=
  let v0 := tri.v0
  let v1 := tri.v1
  let v2 := tri.v2
  let denom := pitD v0.x v0.y v1.x v1.y v2.x v2.y
  if |denom| < 1 / 10000 then (v0.z + v1.z + v2.z) / 3
  else
    let w0 := pitS x y v1.x v1.y v2.x v2.y / denom
    let w1 := pitT x y v0.x v0.y v2.x v2.y / denom
    let w2 := 1 - w0 - w1
    w0 * v0.z + w1 * v1.z + w2 * v2.z

/-- `Math.round` of JavaScript: round half-way cases toward `+∞`. -/
def jsRound (q : ℚ) : ℤ := ⌊q + 1 / 2⌋

structure TriangleInfo where
  triangleId : ℤ
  z : ℤ
deriving DecidableEq, Repr

/-- The containment call made by `findTriangleAtPosition` for one
triangle (line `pointInTriangle(x, y, v[0].x, ...)`). -/
def triangleContains (tri : WalkmeshTriangle) (x y : ℚ) : Bool :=
  pointInTriangle x y tri.v0.x tri.v0.y tri.v1.x tri.v1.y tri.v2.x tri.v2.y

/-- The scanning loop of `findTriangleAtPosition`, with `i` the index of
the first triangle of the remaining list. -/
def findTriangleAux (x y : ℚ) : List WalkmeshTriangle → ℕ → TriangleInfo
  | [], _ => { triangleId := -1, z := 0 }
  | tri :: rest, i =>
    if triangleContains tri x y then
      { triangleId := (i : ℤ), z := jsRound (calculateZAtPoint x y tri) }
    else findTriangleAux x y rest (i + 1)

/-- `findTriangleAtPosition` of the source: linear scan in index order,
first containing triangle wins, sentinel `(-1, 0)` when none contains. -/
def findTriangleAtPosition (walkmesh : Walkmesh) (x y : ℚ) : TriangleInfo :=
  findTriangleAux x y walkmesh.triangles 0

structure WalkmeshBounds where
  minX : ℚ
  maxX : ℚ
  minY : ℚ
  maxY : ℚ
  minZ : ℚ
  maxZ : ℚ
  centerX : ℚ
  centerY : ℚ
  centerZ : ℚ
deriving DecidableEq, Repr

/-- The six running extrema of the bounds loop. -/
structure BoundsAcc where
  minX : ℚ
  maxX : ℚ
  minY : ℚ
  maxY : ℚ
  minZ : ℚ
  maxZ : ℚ
deriving DecidableEq, Repr

/-- One iteration of the inner loop of `calculateWalkmeshBounds`. -/
def boundsStep (acc : BoundsAcc) (v : WalkmeshVertex) : BoundsAcc :=
  { minX := min acc.minX v.x, maxX := max acc.maxX v.x
    minY := min acc.minY v.y, maxY := max acc.maxY v.y
    minZ := min acc.minZ v.z, maxZ := max acc.maxZ v.z }

/-- The vertices visited by the two nested loops of
`calculateWalkmeshBounds`, in visiting order. -/
def walkmeshVertices (walkmesh : Walkmesh) : List WalkmeshVertex :=
  walkmesh.triangles.flatMap (fun tri => [tri.v0, tri.v1, tri.v2])

/-- `calculateWalkmeshBounds` of the source.  The source seeds the fold
with `±Infinity`; over the non-empty vertex list of a non-empty triangle
list this equals seeding with the first vertex's coordinates (the first
`Math.min`/`Math.max` step just replaces `±Infinity`), which is how the
fold is written here.  The vertex list is empty exactly when
`triangles.length === 0`, the source's guard. -/
def calculateWalkmeshBounds (walkmesh : Walkmesh) : WalkmeshBounds :=
  match walkmeshVertices walkmesh with
  | [] =>
    { minX := 0, maxX := 0, minY := 0, maxY := 0, minZ := 0, maxZ := 0
      centerX := 0, centerY := 0, centerZ := 0 }
  | v :: rest =>
    let acc := rest.foldl boundsStep
      { minX := v.x, maxX := v.x, minY := v.y, maxY := v.y, minZ := v.z, maxZ := v.z }
    { minX := acc.minX, maxX := acc.maxX, minY := acc.minY, maxY := acc.maxY
      minZ := acc.minZ, maxZ := acc.maxZ
      centerX := (acc.minX + acc.maxX) / 2
      centerY := (acc.minY + acc.maxY) / 2
      centerZ := (acc.minZ + acc.maxZ) / 2 }

/-- The gateway decoded from slot `i` by the body of the `parseGateways`
loop (24-byte slots from offset 56; vertex1 at +0/+2/+4, vertex2 at
+6/+8/+10, field id at +18). -/
def gatewayOf (buffer : Buffer) (i : ℕ) : Gateway :=
  { vertex1 := ⟨(readInt16 buffer (56 + i * 24) : ℚ), (readInt16 buffer (56 + i * 24 + 2) : ℚ),
                (readInt16 buffer (56 + i * 24 + 4) : ℚ)⟩
    vertex2 := ⟨(readInt16 buffer (56 + i * 24 + 6) : ℚ), (readInt16 buffer (56 + i * 24 + 8) : ℚ),
                (readInt16 buffer (56 + i * 24 + 10) : ℚ)⟩
    fieldId := (readUInt16 buffer (56 + i * 24 + 18) : ℚ) }

/-- Whether slot `i` survives both `continue` filters of `parseGateways`:
nonzero field id, and not all four of the two vertices' x and y zero. -/
def gatewayKeep (buffer : Buffer) (i : ℕ) : Bool :=
  decide (readUInt16 buffer (56 + i * 24 + 18) ≠ 0) &&
    decide (¬(readInt16 buffer (56 + i * 24) = 0 ∧ readInt16 buffer (56 + i * 24 + 2) = 0 ∧
      readInt16 buffer (56 + i * 24 + 6) = 0 ∧ readInt16 buffer (56 + i * 24 + 8) = 0))

/-- Raw little-endian 16-bit word of the buffer at `off`, as the claims
describe the on-disk encoding (spec-side view of the layout). -/
def word16 (buffer : Buffer) (off : ℕ) : ℕ :=
  readByte buffer off + 256 * readByte buffer (off + 1)

/-- Raw little-endian 32-bit word of the buffer at `off`, unsigned
(spec-side view of the header encoding). -/
def word32 (buffer : Buffer) (off : ℕ) : ℕ :=
  readByte buffer off + 256 * readByte buffer (off + 1) +
    65536 * readByte buffer (off + 2) + 16777216 * readByte buffer (off + 3)

/-- Signed interpretation of a stored 16-bit word, as the claims phrase
it: a word `≥ 0x8000` decodes to `word - 0x10000`. -/
def signedOfWord16 (w : ℕ) : ℤ :=
  if w ≥ 0x8000 then (w : ℤ) - 0x10000 else (w : ℤ)

/-- The three vertices of a triangle by position, matching the source's
`vertices[j]` array indexing. -/
def vertexOf (tri : WalkmeshTriangle) : Fin 3 → WalkmeshVertex
  | 0 => tri.v0
  | 1 => tri.v1
  | 2 => tri.v2

/-- The three access values of a triangle by edge position, matching the
source's `access[e]` array indexing. -/
def accessOf (tri : WalkmeshTriangle) : Fin 3 → ℚ
  | 0 => tri.access0
  | 1 => tri.access1
  | 2 => tri.access2

end FF7

namespace FF7

theorem readByte_eq_zero {buffer : Buffer} {off : ℕ} (h : buffer.length ≤ off) :
    readByte buffer off = 0 := by
  unfold readByte
  rw [List.getD_eq_default _ _ h]
  rfl

theorem readInt16_eq_zero {buffer : Buffer} {off : ℕ} (h : buffer.length ≤ off) :
    readInt16 buffer off = 0 := by
  unfold readInt16
  rw [readByte_eq_zero h, readByte_eq_zero (by omega)]
  norm_num

theorem readUInt16_eq_zero {buffer : Buffer} {off : ℕ} (h : buffer.length ≤ off) :
    readUInt16 buffer off = 0 := by
  unfold readUInt16
  rw [readByte_eq_zero h, readByte_eq_zero (by omega)]
  norm_num

theorem readUInt32_eq_word32 (buffer : Buffer) (off : ℕ) (N : ℕ)
    (hw : word32 buffer off = N) (hN : N < 2147483648) :
    readUInt32 buffer off = (N : ℤ) := by
  unfold readUInt32
  unfold word32 at hw
  rw [hw, if_pos hN]

theorem parseWalkmesh_eq_of_count (buffer : Buffer) (N : ℕ) (h4 : 4 ≤ buffer.length)
    (hw : word32 buffer 0 = N) (h1 : 1 ≤ N) (h2 : N ≤ 10000) :
    parseWalkmesh buffer =
      { triangleCount := (N : ℤ),
        triangles := (List.range N).map (parseTriangle buffer N) } := by
  have hr : readUInt32 buffer 0 = (N : ℤ) := readUInt32_eq_word32 buffer 0 N hw (by omega)
  unfold parseWalkmesh
  rw [if_neg (by omega), hr, if_neg (by omega)]
  simp

end FF7

namespace FF7

/-- C2: on a buffer whose unsigned 32-bit header exceeds 10000 but is at
least 2 to the 31st power, the code returns the signed, negative count
with an empty triangle list instead of the claimed empty walkmesh with
triangleCount = 0. -/
theorem claim_C2_malformed_header :
    word32 ([0, 0, 0, 128] : Buffer) 0 = 2147483648 ∧
    10000 < word32 ([0, 0, 0, 128] : Buffer) 0 ∧
    parseWalkmesh ([0, 0, 0, 128] : Buffer) =
      { triangleCount := -2147483648, triangles := [] } ∧
    (parseWalkmesh ([0, 0, 0, 128] : Buffer)).triangleCount ≠ 0 := by
  refine ⟨by decide, by decide, by decide, by decide⟩

/-- C3: the invariant triangles.length == triangleCount fails on the
buffer [1, 0, 0, 255]: the decoded walkmesh has triangleCount = -16777215
and no triangles. -/
theorem claim_C3_invariant :
    (parseWalkmesh ([1, 0, 0, 255] : Buffer)).triangleCount = -16777215 ∧
    (parseWalkmesh ([1, 0, 0, 255] : Buffer)).triangles = [] ∧
    ¬(((parseWalkmesh ([1, 0, 0, 255] : Buffer)).triangles.length : ℤ) =
        (parseWalkmesh ([1, 0, 0, 255] : Buffer)).triangleCount) := by
  refine ⟨by decide, by decide, by decide⟩

/-- C10: parseWalkmesh is total on truncated buffers: when the 4-byte
header is present and declares 1 <= N <= 10000 triangles but the buffer
is shorter than 4 + N*30 bytes, the decoder still returns N triangles,
and every 16-bit field whose bytes lie at or beyond the buffer end
decodes to 0. -/
theorem claim_C10_truncated_total (buffer : Buffer) (N : ℕ)
    (h4 : 4 ≤ buffer.length) (hw : word32 buffer 0 = N)
    (h1 : 1 ≤ N) (h2 : N ≤ 10000) (hshort : buffer.length < 4 + N * 30) :
    (parseWalkmesh buffer).triangleCount = (N : ℤ) ∧
    (parseWalkmesh buffer).triangles.length = N ∧
    (∀ i, i < N → ∀ t, (parseWalkmesh buffer).triangles.get? i = some t →
      (buffer.length ≤ 4 + i * 24 → t.v0.x = 0) ∧
      (buffer.length ≤ 4 + i * 24 + 2 → t.v0.y = 0) ∧
      (buffer.length ≤ 4 + i * 24 + 4 → t.v0.z = 0) ∧
      (buffer.length ≤ 4 + i * 24 + 8 → t.v1.x = 0) ∧
      (buffer.length ≤ 4 + i * 24 + 10 → t.v1.y = 0) ∧
      (buffer.length ≤ 4 + i * 24 + 12 → t.v1.z = 0) ∧
      (buffer.length ≤ 4 + i * 24 + 16 → t.v2.x = 0) ∧
      (buffer.length ≤ 4 + i * 24 + 18 → t.v2.y = 0) ∧
      (buffer.length ≤ 4 + i * 24 + 20 → t.v2.z = 0) ∧
      (buffer.length ≤ (4 + N * 24) + i * 6 → t.access0 = 0) ∧
      (buffer.length ≤ (4 + N * 24) + i * 6 + 2 → t.access1 = 0) ∧
      (buffer.length ≤ (4 + N * 24) + i * 6 + 4 → t.access2 = 0)) := by
  have hmesh := parseWalkmesh_eq_of_count buffer N h4 hw h1 h2
  rw [hmesh]
  refine ⟨rfl, by simp, ?_⟩
  intro i hi t ht
  have hget : ((List.range N).map (parseTriangle buffer N)).get? i =
      some (parseTriangle buffer N i) := by
    rw [List.get?_map, List.get?_range hi]
    rfl
  rw [hget] at ht
  cases ht
  refine ⟨?_, ?_, ?_, ?_, ?_, ?_, ?_, ?_, ?_, ?_, ?_, ?_⟩ <;>
    intro hlen <;>
    simp only [parseTriangle] <;>
    first
      | (rw [readInt16_eq_zero hlen]; norm_num)
      | (rw [readUInt16_eq_zero hlen]; norm_num)

/-- C10 witness: the 4-byte buffer [1, 0, 0, 0] declares one triangle and
is 30 bytes short; the decoder returns one triangle. -/
theorem claim_C10_truncated_total_witness :
    (parseWalkmesh ([1, 0, 0, 0] : Buffer)).triangleCount = (1 : ℤ) ∧
    (parseWalkmesh ([1, 0, 0, 0] : Buffer)).triangles.length = 1 :=
  ⟨(claim_C10_truncated_total ([1, 0, 0, 0] : Buffer) 1 (by decide) (by decide)
      (by decide) (by decide) (by decide)).1,
   (claim_C10_truncated_total ([1, 0, 0, 0] : Buffer) 1 (by decide) (by decide)
      (by decide) (by decide) (by decide)).2.1⟩

end FF7

namespace FF7

theorem readInt16_eq_signedOfWord16 (buffer : Buffer) (off : ℕ) :
    readInt16 buffer off = signedOfWord16 (word16 buffer off) := by
  simp only [readInt16, signedOfWord16, word16]
  split_ifs <;> push_cast <;> omega

theorem readUInt16_eq_word16 (buffer : Buffer) (off : ℕ) :
    readUInt16 buffer off = (word16 buffer off : ℤ) := by
  simp only [readUInt16, word16]
  push_cast
  ring

/-- C1: round-trip exactness of the walkmesh decoder: a buffer of length
at least 4 + N*30 whose header word is N (1 <= N <= 10000) decodes to
exactly N triangles in on-disk order, triangle i's vertex j read as
signed little-endian 16-bit words at 4 + i*24 + j*8 (+0/+2/+4) and its
edge-e access value as the unsigned word at (4 + N*24) + i*6 + 2*e. -/
theorem claim_C1_roundtrip (buffer : Buffer) (N : ℕ)
    (hlen : 4 + N * 30 ≤ buffer.length) (hw : word32 buffer 0 = N)
    (h1 : 1 ≤ N) (h2 : N ≤ 10000) :
    (parseWalkmesh buffer).triangleCount = (N : ℤ) ∧
    (parseWalkmesh buffer).triangles.length = N ∧
    (∀ i, i < N → ∀ t, (parseWalkmesh buffer).triangles.get? i = some t →
      ∀ j : Fin 3,
        vertexOf t j =
          { x := (signedOfWord16 (word16 buffer (4 + i * 24 + j.val * 8)) : ℚ)
            y := (signedOfWord16 (word16 buffer (4 + i * 24 + j.val * 8 + 2)) : ℚ)
            z := (signedOfWord16 (word16 buffer (4 + i * 24 + j.val * 8 + 4)) : ℚ) } ∧
        accessOf t j = (word16 buffer ((4 + N * 24) + i * 6 + 2 * j.val) : ℚ)) := by
  have hmesh := parseWalkmesh_eq_of_count buffer N (by omega) hw h1 h2
  rw [hmesh]
  refine ⟨rfl, by simp, ?_⟩
  intro i hi t ht j
  have hget : ((List.range N).map (parseTriangle buffer N)).get? i =
      some (parseTriangle buffer N i) := by
    rw [List.get?_map, List.get?_range hi]
    rfl
  rw [hget] at ht
  cases ht
  fin_cases j <;>
    refine ⟨?_, ?_⟩ <;>
      simp only [parseTriangle, vertexOf, accessOf, readInt16_eq_signedOfWord16,
        readUInt16_eq_word16] <;>
      norm_num

end FF7

namespace FF7

/-- Sample 34-byte walkmesh buffer for the round-trip witness: header
count 1, one triangle with vertices (-1,2,3), (4,5,6), (7,8,9), padding
bytes 9 (ignored by the decoder), access values 65535, 0, 5. -/
def sampleWalkmeshBuffer : Buffer :=
  [1, 0, 0, 0,
   255, 255, 2, 0, 3, 0, 9, 9,
   4, 0, 5, 0, 6, 0, 9, 9,
   7, 0, 8, 0, 9, 0, 9, 9,
   255, 255, 0, 0, 5, 0]

/-- C1 witness: the sample buffer decodes to one triangle with the
encoded coordinates and access values. -/
theorem claim_C1_roundtrip_witness :
    (parseWalkmesh sampleWalkmeshBuffer).triangleCount = (1 : ℤ) ∧
    (parseWalkmesh sampleWalkmeshBuffer).triangles.length = 1 ∧
    (parseWalkmesh sampleWalkmeshBuffer).triangles.get? 0 =
      some { v0 := ⟨-1, 2, 3⟩, v1 := ⟨4, 5, 6⟩, v2 := ⟨7, 8, 9⟩,
             access0 := 65535, access1 := 0, access2 := 5 } :=
  ⟨(claim_C1_roundtrip sampleWalkmeshBuffer 1 (by decide) (by decide)
      (by decide) (by decide)).1,
   (claim_C1_roundtrip sampleWalkmeshBuffer 1 (by decide) (by decide)
      (by decide) (by decide)).2.1,
   by decide⟩

end FF7

namespace FF7

theorem findTriangleAux_of_none (x y : ℚ) (tris : List WalkmeshTriangle) (k : ℕ)
    (h : ∀ t ∈ tris, triangleContains t x y = false) :
    findTriangleAux x y tris k = { triangleId := -1, z := 0 } := by
  induction tris generalizing k with
  | nil => rfl
  | cons hd tl ih =>
    have hhd := h hd (List.mem_cons_self hd tl)
    rw [findTriangleAux, if_neg (by simp [hhd])]
    exact ih (k + 1) fun t ht => h t (List.mem_cons_of_mem hd ht)

theorem findTriangleAux_first (x y : ℚ) (tris : List WalkmeshTriangle) (k i : ℕ)
    (t : WalkmeshTriangle) (hget : tris.get? i = some t)
    (hc : triangleContains t x y = true)
    (hprev : ∀ j u, j < i → tris.get? j = some u → triangleContains u x y = false) :
    findTriangleAux x y tris k =
      { triangleId := ((k + i : ℕ) : ℤ), z := jsRound (calculateZAtPoint x y t) } := by
  induction tris generalizing k i with
  | nil => simp at hget
  | cons hd tl ih =>
    cases i with
    | zero =>
      have ht : hd = t := by simpa using hget
      subst ht
      rw [findTriangleAux, if_pos (by simp [hc])]
      simp
    | succ n =>
      have hhd : triangleContains hd x y = false :=
        hprev 0 hd (Nat.succ_pos n) rfl
      rw [findTriangleAux, if_neg (by simp [hhd])]
      have hrec := ih (k + 1) n (by simpa using hget)
        (fun j u hj hju => hprev (j + 1) u (by omega) (by simpa using hju))
      rw [hrec]
      congr 1
      omega

/-- C4: findTriangleAtPosition scans the triangles in index order and
returns the lowest index whose triangle contains the query point under
the 2D containment test, with the rounded interpolated elevation there;
if no triangle contains the point it returns the sentinel (-1, 0). -/
theorem claim_C4_first_match (wm : Walkmesh) (x y : ℚ) :
    ((∀ t ∈ wm.triangles, triangleContains t x y = false) →
      findTriangleAtPosition wm x y = { triangleId := -1, z := 0 }) ∧
    (∀ i t, wm.triangles.get? i = some t → triangleContains t x y = true →
      (∀ j u, j < i → wm.triangles.get? j = some u → triangleContains u x y = false) →
      findTriangleAtPosition wm x y =
        { triangleId := (i : ℤ), z := jsRound (calculateZAtPoint x y t) }) := by
  constructor
  · intro h
    exact findTriangleAux_of_none x y wm.triangles 0 h
  · intro i t hget hc hprev
    have := findTriangleAux_first x y wm.triangles 0 i t hget hc hprev
    simpa [findTriangleAtPosition] using this

/-- Example triangle of the spec: vertices (0,0,0), (10,0,0), (0,10,30). -/
def exampleTriangle : WalkmeshTriangle :=
  { v0 := ⟨0, 0, 0⟩, v1 := ⟨10, 0, 0⟩, v2 := ⟨0, 10, 30⟩,
    access0 := 0, access1 := 0, access2 := 0 }

/-- C4 witness: the empty walkmesh yields the sentinel, and on a
one-triangle walkmesh containing (1,1) index 0 wins. -/
theorem claim_C4_first_match_witness :
    findTriangleAtPosition { triangleCount := 0, triangles := [] } 1 1 =
      { triangleId := -1, z := 0 } ∧
    findTriangleAtPosition { triangleCount := 1, triangles := [exampleTriangle] } 1 1 =
      { triangleId := (0 : ℤ), z := jsRound (calculateZAtPoint 1 1 exampleTriangle) } :=
  ⟨(claim_C4_first_match { triangleCount := 0, triangles := [] } 1 1).1
      (fun t ht => absurd ht (List.not_mem_nil t)),
   (claim_C4_first_match { triangleCount := 1, triangles := [exampleTriangle] } 1 1).2
      0 exampleTriangle rfl
      (by simp only [triangleContains, pointInTriangle, pitD, pitS, pitT, exampleTriangle]
          norm_num)
      (fun j u hj _ => absurd hj (Nat.not_lt_zero j))⟩

end FF7

namespace FF7

theorem pit_comb_x (px py v0x v0y v1x v1y v2x v2y : ℚ) :
    pitS px py v1x v1y v2x v2y * (v0x - v2x) + pitT px py v0x v0y v2x v2y * (v1x - v2x) =
      pitD v0x v0y v1x v1y v2x v2y * (px - v2x) := by
  simp only [pitS, pitT, pitD]
  ring

theorem pit_comb_y (px py v0x v0y v1x v1y v2x v2y : ℚ) :
    pitS px py v1x v1y v2x v2y * (v0y - v2y) + pitT px py v0x v0y v2x v2y * (v1y - v2y) =
      pitD v0x v0y v1x v1y v2x v2y * (py - v2y) := by
  simp only [pitS, pitT, pitD]
  ring

theorem pitS_of_combo (v0x v0y v1x v1y v2x v2y a b c : ℚ) (hsum : a + b + c = 1) :
    pitS (a * v0x + b * v1x + c * v2x) (a * v0y + b * v1y + c * v2y) v1x v1y v2x v2y =
      a * pitD v0x v0y v1x v1y v2x v2y := by
  have hc : c = 1 - a - b := by linarith
  subst hc
  simp only [pitS, pitD]
  ring

theorem pitT_of_combo (v0x v0y v1x v1y v2x v2y a b c : ℚ) (hsum : a + b + c = 1) :
    pitT (a * v0x + b * v1x + c * v2x) (a * v0y + b * v1y + c * v2y) v0x v0y v2x v2y =
      b * pitD v0x v0y v1x v1y v2x v2y := by
  have hc : c = 1 - a - b := by linarith
  subst hc
  simp only [pitT, pitD]
  ring

/-- C5: for a triangle with nonzero signed area D, and for either
winding, pointInTriangle accepts exactly the points of the closed
triangle, i.e. the points that are convex combinations of the three
vertices; in particular points on an edge are accepted. -/
theorem claim_C5_closed_triangle (px py v0x v0y v1x v1y v2x v2y : ℚ)
    (hD : pitD v0x v0y v1x v1y v2x v2y ≠ 0) :
    pointInTriangle px py v0x v0y v1x v1y v2x v2y = true ↔
      ∃ a b c : ℚ, 0 ≤ a ∧ 0 ≤ b ∧ 0 ≤ c ∧ a + b + c = 1 ∧
        px = a * v0x + b * v1x + c * v2x ∧ py = a * v0y + b * v1y + c * v2y := by
  have hcx := pit_comb_x px py v0x v0y v1x v1y v2x v2y
  have hcy := pit_comb_y px py v0x v0y v1x v1y v2x v2y
  simp only [pointInTriangle]
  set D := pitD v0x v0y v1x v1y v2x v2y with hDdef
  set s := pitS px py v1x v1y v2x v2y with hsdef
  set t := pitT px py v0x v0y v2x v2y with htdef
  rcases lt_trichotomy D 0 with hneg | hzero | hpos
  · rw [if_pos hneg]
    simp only [decide_eq_true_eq]
    constructor
    · rintro ⟨hs, ht, hst⟩
      refine ⟨s / D, t / D, (D - s - t) / D, ?_, ?_, ?_, ?_, ?_, ?_⟩
      · rw [div_nonneg_iff]
        right
        exact ⟨hs, le_of_lt hneg⟩
      · rw [div_nonneg_iff]
        right
        exact ⟨ht, le_of_lt hneg⟩
      · rw [div_nonneg_iff]
        right
        exact ⟨by linarith, le_of_lt hneg⟩
      · rw [div_add_div_same, div_add_div_same, div_eq_one_iff_eq hD]
        ring
      · have key : px * D = s * v0x + t * v1x + (D - s - t) * v2x := by
          linear_combination -hcx
        have expand : s / D * v0x + t / D * v1x + (D - s - t) / D * v2x =
            (s * v0x + t * v1x + (D - s - t) * v2x) / D := by
          ring
        rw [expand, eq_div_iff hD]
        exact key
      · have key : py * D = s * v0y + t * v1y + (D - s - t) * v2y := by
          linear_combination -hcy
        have expand : s / D * v0y + t / D * v1y + (D - s - t) / D * v2y =
            (s * v0y + t * v1y + (D - s - t) * v2y) / D := by
          ring
        rw [expand, eq_div_iff hD]
        exact key
    · rintro ⟨a, b, c, ha, hb, hc, hsum, hx, hy⟩
      have hsval : s = a * D := by
        rw [hsdef, hDdef, hx, hy]
        exact pitS_of_combo v0x v0y v1x v1y v2x v2y a b c hsum
      have htval : t = b * D := by
        rw [htdef, hDdef, hx, hy]
        exact pitT_of_combo v0x v0y v1x v1y v2x v2y a b c hsum
      have hcD : c * D ≤ 0 := mul_nonpos_of_nonneg_of_nonpos hc (le_of_lt hneg)
      refine ⟨?_, ?_, ?_⟩
      · rw [hsval]
        exact mul_nonpos_of_nonneg_of_nonpos ha (le_of_lt hneg)
      · rw [htval]
        exact mul_nonpos_of_nonneg_of_nonpos hb (le_of_lt hneg)
      · rw [hsval, htval]
        nlinarith [hcD]
  · exact absurd hzero hD
  · rw [if_neg (by linarith)]
    simp only [decide_eq_true_eq]
    constructor
    · rintro ⟨hs, ht, hst⟩
      refine ⟨s / D, t / D, (D - s - t) / D, ?_, ?_, ?_, ?_, ?_, ?_⟩
      · exact div_nonneg hs (le_of_lt hpos)
      · exact div_nonneg ht (le_of_lt hpos)
      · exact div_nonneg (by linarith) (le_of_lt hpos)
      · rw [div_add_div_same, div_add_div_same, div_eq_one_iff_eq hD]
        ring
      · have key : px * D = s * v0x + t * v1x + (D - s - t) * v2x := by
          linear_combination -hcx
        have expand : s / D * v0x + t / D * v1x + (D - s - t) / D * v2x =
            (s * v0x + t * v1x + (D - s - t) * v2x) / D := by
          ring
        rw [expand, eq_div_iff hD]
        exact key
      · have key : py * D = s * v0y + t * v1y + (D - s - t) * v2y := by
          linear_combination -hcy
        have expand : s / D * v0y + t / D * v1y + (D - s - t) / D * v2y =
            (s * v0y + t * v1y + (D - s - t) * v2y) / D := by
          ring
        rw [expand, eq_div_iff hD]
        exact key
    · rintro ⟨a, b, c, ha, hb, hc, hsum, hx, hy⟩
      have hsval : s = a * D := by
        rw [hsdef, hDdef, hx, hy]
        exact pitS_of_combo v0x v0y v1x v1y v2x v2y a b c hsum
      have htval : t = b * D := by
        rw [htdef, hDdef, hx, hy]
        exact pitT_of_combo v0x v0y v1x v1y v2x v2y a b c hsum
      have hcD : 0 ≤ c * D := mul_nonneg hc (le_of_lt hpos)
      refine ⟨?_, ?_, ?_⟩
      · rw [hsval]
        exact mul_nonneg ha (le_of_lt hpos)
      · rw [htval]
        exact mul_nonneg hb (le_of_lt hpos)
      · rw [hsval, htval]
        nlinarith [hcD]

end FF7

namespace FF7

/-- C5 witness: the triangle (0,0), (10,0), (0,10) has D = 100, and the
characterization applies at the point (1,1). -/
theorem claim_C5_closed_triangle_witness :
    pointInTriangle 1 1 0 0 10 0 0 10 = true ↔
      ∃ a b c : ℚ, 0 ≤ a ∧ 0 ≤ b ∧ 0 ≤ c ∧ a + b + c = 1 ∧
        (1 : ℚ) = a * 0 + b * 10 + c * 0 ∧ (1 : ℚ) = a * 0 + b * 0 + c * 10 :=
  claim_C5_closed_triangle 1 1 0 0 10 0 0 10 (by norm_num [pitD])

/-- C7: when the barycentric denominator is below the 1e-4 epsilon in
magnitude, calculateZAtPoint returns the unweighted average of the three
z values (and, being a total function, raises nothing). -/
theorem claim_C7_degenerate_fallback (tri : WalkmeshTriangle) (x y : ℚ)
    (hdeg : |pitD tri.v0.x tri.v0.y tri.v1.x tri.v1.y tri.v2.x tri.v2.y| < 1 / 10000) :
    calculateZAtPoint x y tri = (tri.v0.z + tri.v1.z + tri.v2.z) / 3 := by
  simp only [calculateZAtPoint]
  rw [if_pos hdeg]

/-- Degenerate triangle with three collinear vertices (0,0), (1,1), (2,2)
and elevations 3, 6, 9. -/
def degenerateTriangle : WalkmeshTriangle :=
  { v0 := ⟨0, 0, 3⟩, v1 := ⟨1, 1, 6⟩, v2 := ⟨2, 2, 9⟩,
    access0 := 0, access1 := 0, access2 := 0 }

/-- C7 witness: on the collinear triangle the interpolation at (5,7)
falls back to the mean elevation 6. -/
theorem claim_C7_degenerate_fallback_witness :
    calculateZAtPoint 5 7 degenerateTriangle = (3 + 6 + 9) / 3 :=
  claim_C7_degenerate_fallback degenerateTriangle 5 7 (by norm_num [pitD, degenerateTriangle])

end FF7

namespace FF7

/-- C6: when the barycentric denominator has magnitude at least 1e-4,
calculateZAtPoint returns the weighted sum of the three elevations under
the standard barycentric weights of the query point (the unique affine
weights expressing the point against the triangle's vertices); and on the
spec's example triangle (0,0,0), (10,0,0), (0,10,30) the point
(10/3, 10/3) is contained and the query returns elevation 10. -/
theorem claim_C6_barycentric_elevation :
    (∀ (tri : WalkmeshTriangle) (x y a b c : ℚ),
      1 / 10000 ≤ |pitD tri.v0.x tri.v0.y tri.v1.x tri.v1.y tri.v2.x tri.v2.y| →
      a + b + c = 1 →
      x = a * tri.v0.x + b * tri.v1.x + c * tri.v2.x →
      y = a * tri.v0.y + b * tri.v1.y + c * tri.v2.y →
      calculateZAtPoint x y tri = a * tri.v0.z + b * tri.v1.z + c * tri.v2.z) ∧
    (triangleContains exampleTriangle (10 / 3) (10 / 3) = true ∧
      findTriangleAtPosition { triangleCount := 1, triangles := [exampleTriangle] }
        (10 / 3) (10 / 3) = { triangleId := 0, z := 10 }) := by
  constructor
  · intro tri x y a b c hge hsum hx hy
    simp only [calculateZAtPoint]
    set D := pitD tri.v0.x tri.v0.y tri.v1.x tri.v1.y tri.v2.x tri.v2.y with hDdef
    have hD : D ≠ 0 := by
      intro h0
      rw [h0] at hge
      norm_num at hge
    have hs : pitS x y tri.v1.x tri.v1.y tri.v2.x tri.v2.y = a * D := by
      rw [hx, hy, hDdef]
      exact pitS_of_combo tri.v0.x tri.v0.y tri.v1.x tri.v1.y tri.v2.x tri.v2.y a b c hsum
    have ht : pitT x y tri.v0.x tri.v0.y tri.v2.x tri.v2.y = b * D := by
      rw [hx, hy, hDdef]
      exact pitT_of_combo tri.v0.x tri.v0.y tri.v1.x tri.v1.y tri.v2.x tri.v2.y a b c hsum
    rw [if_neg (not_lt.mpr hge), hs, ht, mul_div_cancel_right₀ a hD, mul_div_cancel_right₀ b hD]
    have hcc : c = 1 - a - b := by linarith
    rw [hcc]
  · constructor
    · simp only [triangleContains, pointInTriangle, pitD, pitS, pitT, exampleTriangle]
      norm_num
    · have hcont : triangleContains exampleTriangle (10 / 3) (10 / 3) = true := by
        simp only [triangleContains, pointInTriangle, pitD, pitS, pitT, exampleTriangle]
        norm_num
      have hz : calculateZAtPoint (10 / 3) (10 / 3) exampleTriangle = 10 := by
        simp only [calculateZAtPoint, exampleTriangle]
        rw [if_neg (by norm_num [pitD])]
        norm_num [pitS, pitT, pitD]
      rw [findTriangleAtPosition, findTriangleAux, if_pos (by simp [hcont]), hz]
      norm_num [jsRound]
end FF7

namespace FF7

/-- C6 witness: on the example triangle with weights (1/3, 1/3, 1/3) at
the point (10/3, 10/3) the interpolated elevation is the weighted sum. -/
theorem claim_C6_barycentric_elevation_witness :
    calculateZAtPoint (10 / 3) (10 / 3) exampleTriangle =
      1 / 3 * exampleTriangle.v0.z + 1 / 3 * exampleTriangle.v1.z +
        1 / 3 * exampleTriangle.v2.z :=
  claim_C6_barycentric_elevation.1 exampleTriangle (10 / 3) (10 / 3) (1 / 3) (1 / 3) (1 / 3)
    (by norm_num [pitD, exampleTriangle]) (by norm_num)
    (by norm_num [exampleTriangle]) (by norm_num [exampleTriangle])

theorem parseGatewaySlot_eq (buffer : Buffer) (i : ℕ) :
    parseGatewaySlot buffer i =
      if gatewayKeep buffer i then some (gatewayOf buffer i) else none := by
  by_cases h1 : readUInt16 buffer (56 + i * 24 + 18) = 0
  · simp [parseGatewaySlot, gatewayKeep, h1]
  · by_cases h2 : readInt16 buffer (56 + i * 24) = 0 ∧ readInt16 buffer (56 + i * 24 + 2) = 0 ∧
        readInt16 buffer (56 + i * 24 + 6) = 0 ∧ readInt16 buffer (56 + i * 24 + 8) = 0
    · simp [parseGatewaySlot, gatewayKeep, h1, h2, Int.cast_eq_zero]
    · simp only [parseGatewaySlot, gatewayKeep, gatewayOf]
      rw [if_neg h1, if_neg (by push_cast; exact_mod_cast h2), if_pos (by simp [h1, h2])]

theorem filterMap_parseGatewaySlot (buffer : Buffer) (l : List ℕ) :
    l.filterMap (parseGatewaySlot buffer) =
      (l.filter (gatewayKeep buffer)).map (gatewayOf buffer) := by
  induction l with
  | nil => rfl
  | cons hd tl ih =>
    rw [List.filterMap_cons, List.filter_cons]
    by_cases h : gatewayKeep buffer hd
    · rw [parseGatewaySlot_eq, if_pos h, if_pos h, List.map_cons, ih]
    · rw [parseGatewaySlot_eq, if_neg h, if_neg h, ih]

/-- C8: for buffers of at least 344 bytes, parseGateways returns, in slot
order with no gaps, exactly the slots among the 12 whose field id is
nonzero and whose two vertices' x and y are not all four zero, each
decoded from its fixed offsets; shorter buffers give the empty list. -/
theorem claim_C8_gateway_filter (buffer : Buffer) :
    (buffer.length < 344 → parseGateways buffer = []) ∧
    (344 ≤ buffer.length →
      parseGateways buffer =
        ((List.range 12).filter (gatewayKeep buffer)).map (gatewayOf buffer)) := by
  constructor
  · intro h
    rw [parseGateways, if_pos h]
  · intro h
    rw [parseGateways, if_neg (by omega)]
    exact filterMap_parseGatewaySlot buffer (List.range 12)

/-- Sample 344-byte gateway buffer: all zero except slot 0's vertex1.x
(byte 56) and field id (byte 74). -/
def sampleGatewayBuffer : Buffer :=
  ((List.replicate 344 (0 : Byte)).set 56 1).set 74 7

/-- C8 witness: the short branch on the empty buffer and the filtering
branch on the 344-byte sample buffer. -/
theorem claim_C8_gateway_filter_witness :
    parseGateways [] = [] ∧
    parseGateways sampleGatewayBuffer =
      ((List.range 12).filter (gatewayKeep sampleGatewayBuffer)).map
        (gatewayOf sampleGatewayBuffer) :=
  ⟨(claim_C8_gateway_filter []).1 (by norm_num),
   (claim_C8_gateway_filter sampleGatewayBuffer).2
      (by simp only [sampleGatewayBuffer, List.length_set, List.length_replicate]
          omega)⟩

end FF7

namespace FF7

theorem foldl_boundsStep_minX (l : List WalkmeshVertex) (acc : BoundsAcc) :
    (l.foldl boundsStep acc).minX = (l.map (fun v => v.x)).foldl min acc.minX := by
  induction l generalizing acc with
  | nil => rfl
  | cons hd tl ih => simp [boundsStep, ih]

theorem foldl_boundsStep_maxX (l : List WalkmeshVertex) (acc : BoundsAcc) :
    (l.foldl boundsStep acc).maxX = (l.map (fun v => v.x)).foldl max acc.maxX := by
  induction l generalizing acc with
  | nil => rfl
  | cons hd tl ih => simp [boundsStep, ih]

theorem foldl_boundsStep_minY (l : List WalkmeshVertex) (acc : BoundsAcc) :
    (l.foldl boundsStep acc).minY = (l.map (fun v => v.y)).foldl min acc.minY := by
  induction l generalizing acc with
  | nil => rfl
  | cons hd tl ih => simp [boundsStep, ih]

theorem foldl_boundsStep_maxY (l : List WalkmeshVertex) (acc : BoundsAcc) :
    (l.foldl boundsStep acc).maxY = (l.map (fun v => v.y)).foldl max acc.maxY := by
  induction l generalizing acc with
  | nil => rfl
  | cons hd tl ih => simp [boundsStep, ih]

theorem foldl_boundsStep_minZ (l : List WalkmeshVertex) (acc : BoundsAcc) :
    (l.foldl boundsStep acc).minZ = (l.map (fun v => v.z)).foldl min acc.minZ := by
  induction l generalizing acc with
  | nil => rfl
  | cons hd tl ih => simp [boundsStep, ih]

theorem foldl_boundsStep_maxZ (l : List WalkmeshVertex) (acc : BoundsAcc) :
    (l.foldl boundsStep acc).maxZ = (l.map (fun v => v.z)).foldl max acc.maxZ := by
  induction l generalizing acc with
  | nil => rfl
  | cons hd tl ih => simp [boundsStep, ih]

theorem foldl_min_le_init (l : List ℚ) (a : ℚ) : l.foldl min a ≤ a := by
  induction l generalizing a with
  | nil => exact le_refl a
  | cons hd tl ih => exact (ih (min a hd)).trans (min_le_left a hd)

theorem foldl_min_le_mem (l : List ℚ) : ∀ a b : ℚ, b ∈ l → l.foldl min a ≤ b := by
  induction l with
  | nil =>
    intro a b hb
    cases hb
  | cons hd tl ih =>
    intro a b hb
    rcases List.mem_cons.mp hb with h | h
    · subst h
      exact (foldl_min_le_init tl (min a b)).trans (min_le_right a b)
    · exact ih (min a hd) b h

theorem foldl_min_mem_or (l : List ℚ) (a : ℚ) : l.foldl min a = a ∨ l.foldl min a ∈ l := by
  induction l generalizing a with
  | nil => exact Or.inl rfl
  | cons hd tl ih =>
    rcases ih (min a hd) with h | h
    · rcases min_choice a hd with hm | hm
      · exact Or.inl (by rw [List.foldl_cons, h, hm])
      · exact Or.inr (by rw [List.foldl_cons, h, hm]; exact List.mem_cons_self hd tl)
    · exact Or.inr (List.mem_cons_of_mem hd h)

theorem init_le_foldl_max (l : List ℚ) (a : ℚ) : a ≤ l.foldl max a := by
  induction l generalizing a with
  | nil => exact le_refl a
  | cons hd tl ih => exact (le_max_left a hd).trans (ih (max a hd))

theorem mem_le_foldl_max (l : List ℚ) : ∀ a b : ℚ, b ∈ l → b ≤ l.foldl max a := by
  induction l with
  | nil =>
    intro a b hb
    cases hb
  | cons hd tl ih =>
    intro a b hb
    rcases List.mem_cons.mp hb with h | h
    · subst h
      exact (le_max_right a b).trans (init_le_foldl_max tl (max a b))
    · exact ih (max a hd) b h

theorem foldl_max_mem_or (l : List ℚ) (a : ℚ) : l.foldl max a = a ∨ l.foldl max a ∈ l := by
  induction l generalizing a with
  | nil => exact Or.inl rfl
  | cons hd tl ih =>
    rcases ih (max a hd) with h | h
    · rcases max_choice a hd with hm | hm
      · exact Or.inl (by rw [List.foldl_cons, h, hm])
      · exact Or.inr (by rw [List.foldl_cons, h, hm]; exact List.mem_cons_self hd tl)
    · exact Or.inr (List.mem_cons_of_mem hd h)

theorem foldl_min_isLeast (a : ℚ) (l : List ℚ) :
    IsLeast {q | q ∈ a :: l} (l.foldl min a) := by
  constructor
  · rcases foldl_min_mem_or l a with h | h
    · rw [h]
      exact List.mem_cons_self a l
    · exact List.mem_cons_of_mem a h
  · intro q hq
    rcases List.mem_cons.mp hq with h | h
    · subst h
      exact foldl_min_le_init l q
    · exact foldl_min_le_mem l a q h

theorem foldl_max_isGreatest (a : ℚ) (l : List ℚ) :
    IsGreatest {q | q ∈ a :: l} (l.foldl max a) := by
  constructor
  · rcases foldl_max_mem_or l a with h | h
    · rw [h]
      exact List.mem_cons_self a l
    · exact List.mem_cons_of_mem a h
  · intro q hq
    rcases List.mem_cons.mp hq with h | h
    · subst h
      exact init_le_foldl_max l q
    · exact mem_le_foldl_max l a q h

end FF7

namespace FF7

/-- C9: the bounds of a walkmesh with no triangles are all zero; for a
non-empty walkmesh each axis's min and max are the least and greatest
coordinate over every vertex of every triangle, and each center is the
arithmetic midpoint of min and max. -/
theorem claim_C9_bounds (wm : Walkmesh) :
    (wm.triangles = [] → calculateWalkmeshBounds wm =
      { minX := 0, maxX := 0, minY := 0, maxY := 0, minZ := 0, maxZ := 0,
        centerX := 0, centerY := 0, centerZ := 0 }) ∧
    (wm.triangles ≠ [] →
      IsLeast {q | q ∈ (walkmeshVertices wm).map (fun v => v.x)}
        (calculateWalkmeshBounds wm).minX ∧
      IsGreatest {q | q ∈ (walkmeshVertices wm).map (fun v => v.x)}
        (calculateWalkmeshBounds wm).maxX ∧
      IsLeast {q | q ∈ (walkmeshVertices wm).map (fun v => v.y)}
        (calculateWalkmeshBounds wm).minY ∧
      IsGreatest {q | q ∈ (walkmeshVertices wm).map (fun v => v.y)}
        (calculateWalkmeshBounds wm).maxY ∧
      IsLeast {q | q ∈ (walkmeshVertices wm).map (fun v => v.z)}
        (calculateWalkmeshBounds wm).minZ ∧
      IsGreatest {q | q ∈ (walkmeshVertices wm).map (fun v => v.z)}
        (calculateWalkmeshBounds wm).maxZ ∧
      (calculateWalkmeshBounds wm).centerX =
        ((calculateWalkmeshBounds wm).minX + (calculateWalkmeshBounds wm).maxX) / 2 ∧
      (calculateWalkmeshBounds wm).centerY =
        ((calculateWalkmeshBounds wm).minY + (calculateWalkmeshBounds wm).maxY) / 2 ∧
      (calculateWalkmeshBounds wm).centerZ =
        ((calculateWalkmeshBounds wm).minZ + (calculateWalkmeshBounds wm).maxZ) / 2) := by
  constructor
  · intro h
    have hv : walkmeshVertices wm = [] := by
      simp [walkmeshVertices, h]
    rw [calculateWalkmeshBounds, hv]
  · intro h
    have hv : walkmeshVertices wm ≠ [] := by
      simp only [walkmeshVertices, ne_eq, List.flatMap_eq_nil_iff]
      intro hall
      rcases List.exists_mem_of_ne_nil wm.triangles h with ⟨t, ht⟩
      exact absurd (hall t ht) (by simp)
    obtain ⟨v, rest, hcons⟩ := List.exists_cons_of_ne_nil hv
    have hB : calculateWalkmeshBounds wm =
        { minX := (rest.foldl boundsStep
            { minX := v.x, maxX := v.x, minY := v.y, maxY := v.y, minZ := v.z, maxZ := v.z }).minX
          maxX := (rest.foldl boundsStep
            { minX := v.x, maxX := v.x, minY := v.y, maxY := v.y, minZ := v.z, maxZ := v.z }).maxX
          minY := (rest.foldl boundsStep
            { minX := v.x, maxX := v.x, minY := v.y, maxY := v.y, minZ := v.z, maxZ := v.z }).minY
          maxY := (rest.foldl boundsStep
            { minX := v.x, maxX := v.x, minY := v.y, maxY := v.y, minZ := v.z, maxZ := v.z }).maxY
          minZ := (rest.foldl boundsStep
            { minX := v.x, maxX := v.x, minY := v.y, maxY := v.y, minZ := v.z, maxZ := v.z }).minZ
          maxZ := (rest.foldl boundsStep
            { minX := v.x, maxX := v.x, minY := v.y, maxY := v.y, minZ := v.z, maxZ := v.z }).maxZ
          centerX := ((rest.foldl boundsStep
            { minX := v.x, maxX := v.x, minY := v.y, maxY := v.y, minZ := v.z, maxZ := v.z }).minX +
            (rest.foldl boundsStep
            { minX := v.x, maxX := v.x, minY := v.y, maxY := v.y, minZ := v.z, maxZ := v.z }).maxX) / 2
          centerY := ((rest.foldl boundsStep
            { minX := v.x, maxX := v.x, minY := v.y, maxY := v.y, minZ := v.z, maxZ := v.z }).minY +
            (rest.foldl boundsStep
            { minX := v.x, maxX := v.x, minY := v.y, maxY := v.y, minZ := v.z, maxZ := v.z }).maxY) / 2
          centerZ := ((rest.foldl boundsStep
            { minX := v.x, maxX := v.x, minY := v.y, maxY := v.y, minZ := v.z, maxZ := v.z }).minZ +
            (rest.foldl boundsStep
            { minX := v.x, maxX := v.x, minY := v.y, maxY := v.y, minZ := v.z, maxZ := v.z }).maxZ) / 2 } := by
      rw [calculateWalkmeshBounds, hcons]
    rw [hB, hcons]
    simp only [List.map_cons]
    refine ⟨?_, ?_, ?_, ?_, ?_, ?_, ?c1, ?c2, ?c3⟩
    case c1 => trivial
    case c2 => trivial
    case c3 => trivial
    · rw [foldl_boundsStep_minX]
      exact foldl_min_isLeast v.x (rest.map fun v => v.x)
    · rw [foldl_boundsStep_maxX]
      exact foldl_max_isGreatest v.x (rest.map fun v => v.x)
    · rw [foldl_boundsStep_minY]
      exact foldl_min_isLeast v.y (rest.map fun v => v.y)
    · rw [foldl_boundsStep_maxY]
      exact foldl_max_isGreatest v.y (rest.map fun v => v.y)
    · rw [foldl_boundsStep_minZ]
      exact foldl_min_isLeast v.z (rest.map fun v => v.z)
    · rw [foldl_boundsStep_maxZ]
      exact foldl_max_isGreatest v.z (rest.map fun v => v.z)

end FF7

namespace FF7

/-- One-triangle walkmesh whose x coordinates span [-50, 150]. -/
def sampleBoundsWalkmesh : Walkmesh :=
  { triangleCount := 1
    triangles := [{ v0 := ⟨-50, 2, 7⟩, v1 := ⟨150, 4, 9⟩, v2 := ⟨10, 0, 3⟩,
                    access0 := 0, access1 := 0, access2 := 0 }] }

/-- C9 witness: the empty walkmesh gets all-zero bounds, and on the
sample walkmesh minX is the least vertex x and centerX the midpoint. -/
theorem claim_C9_bounds_witness :
    calculateWalkmeshBounds { triangleCount := 0, triangles := [] } =
      { minX := 0, maxX := 0, minY := 0, maxY := 0, minZ := 0, maxZ := 0,
        centerX := 0, centerY := 0, centerZ := 0 } ∧
    IsLeast {q | q ∈ (walkmeshVertices sampleBoundsWalkmesh).map (fun v => v.x)}
      (calculateWalkmeshBounds sampleBoundsWalkmesh).minX ∧
    (calculateWalkmeshBounds sampleBoundsWalkmesh).centerX =
      ((calculateWalkmeshBounds sampleBoundsWalkmesh).minX +
        (calculateWalkmeshBounds sampleBoundsWalkmesh).maxX) / 2 := by
  have h2 := (claim_C9_bounds sampleBoundsWalkmesh).2 (by simp [sampleBoundsWalkmesh])
  exact ⟨(claim_C9_bounds { triangleCount := 0, triangles := [] }).1 rfl,
    h2.1, h2.2.2.2.2.2.2.1⟩

end FF7
